import Mathlib

/-!
Verification of the thermocouple calculator interface
(thermocouple_calculator.h, GOST R 8.585-2001).

The header declares a 13-variant thermocouple type enumeration, 26 per-type
converter functions (temperature to EMF and EMF to temperature), an error
hook `Thermocouple_hardfault`, and the cold-junction-compensating dispatcher
`Thermocouple_Get_Temperature(double, double, uint8_t)`.  The repository
ships only the header: converter and dispatcher bodies are declared but not
defined there.  Where a body is needed below it is modelled from the spec
and marked as such; dispatcher-level results are proved parametrically in
the family of per-type converters.  Double values are embedded as real
numbers; the `uint8_t` selector is embedded as `Fin 256`.
-/

/-- The thermocouple type enumeration of thermocouple_calculator.h
(lines 64-78): exactly 13 variants, in source order
R, S, B, J, T, E, K, N, A1, A2, A3, L, M. -/
inductive ThermocoupleType : Type
  | R
  | S
  | B
  | J
  | T
  | E
  | K
  | N
  | A1
  | A2
  | A3
  | L
  | M
  deriving DecidableEq, Fintype, Repr

/-- The ordinal value each enumerator receives in C: enumerators without
initializers count up from 0, so Thermocouple_R = 0, ..., Thermocouple_M = 12. -/
def ThermocoupleType.ordinal : ThermocoupleType → Nat
  | .R => 0
  | .S => 1
  | .B => 2
  | .J => 3
  | .T => 4
  | .E => 5
  | .K => 6
  | .N => 7
  | .A1 => 8
  | .A2 => 9
  | .A3 => 10
  | .L => 11
  | .M => 12

/-- The enumerators in declaration order. -/
def ThermocoupleType.variants : List ThermocoupleType :=
  [.R, .S, .B, .J, .T, .E, .K, .N, .A1, .A2, .A3, .L, .M]

/-- Decoding of a selector ordinal, as the dispatcher must perform it: the
13 ordinals 0..12 map to their enumerator, every other value is unknown. -/
def ThermocoupleType.ofOrdinal? : Nat → Option ThermocoupleType
  | 0 => some .R
  | 1 => some .S
  | 2 => some .B
  | 3 => some .J
  | 4 => some .T
  | 5 => some .E
  | 6 => some .K
  | 7 => some .N
  | 8 => some .A1
  | 9 => some .A2
  | 10 => some .A3
  | 11 => some .L
  | 12 => some .M
  | _ => none

/-- The selector byte carrying a given thermocouple type. -/
def ThermocoupleType.selector (t : ThermocoupleType) : Fin 256 :=
  ⟨t.ordinal, by cases t <;> decide⟩

/-- Modelled from the spec: the bodies of the 26 per-type converter functions
declared in thermocouple_calculator.h (lines 80-105) are missing from the
repository (only the header is shipped).  A converter family packages, for
each thermocouple type, its temperature-to-EMF and EMF-to-temperature
conversion as a total function on doubles (embedded as reals); dispatcher
facts are proved for every such family. -/
structure ConverterFamily where
  tempToEMF : ThermocoupleType → ℝ → ℝ
  EMFToTemp : ThermocoupleType → ℝ → ℝ

/-- Modelled from the spec: the body of Thermocouple_Get_Temperature
(declared at thermocouple_calculator.h line 107) is missing from the
repository.  Per spec section 4.3 the dispatcher validates the selector,
invokes the error hook on an unknown selector and returns a sentinel
(modelled as `none`), and otherwise returns
EMF_to_temperature[type](measured_EMF + temperature_to_EMF[type](cold_junction_temperature)).
The second component counts the error-hook invocations made by the call. -/
def Thermocouple_Get_Temperature (F : ConverterFamily)
    (Temperature_cold_junior TEMF : ℝ) (ty : Fin 256) : Option ℝ × Nat :=
  match ThermocoupleType.ofOrdinal? ty.val with
  | some t => (some (F.EMFToTemp t (TEMF + F.tempToEMF t Temperature_cold_junior)), 0)
  | none => (none, 1)

/-- The dispatcher with the error hook's side-effect target threaded through
explicitly: `tally` counts the hook invocations made by earlier calls, the
only mutable state the spec admits (section 5). -/
def Thermocouple_Get_Temperature_run (F : ConverterFamily)
    (Temperature_cold_junior TEMF : ℝ) (ty : Fin 256) (tally : Nat) : Option ℝ × Nat :=
  ((Thermocouple_Get_Temperature F Temperature_cold_junior TEMF ty).1,
    tally + (Thermocouple_Get_Temperature F Temperature_cold_junior TEMF ty).2)

/-- Modelled from the spec (section 4.2): one polynomial segment of a
converter: a coefficient list evaluated as a power series, optionally with
an exponential correction term c * exp(-d * (x - e)^2) as the standard
requires for some types. -/
structure CoefficientSet where
  coeffs : List ℚ
  correction : Option (ℚ × ℚ × ℚ)

/-- Power-series value of a coefficient list at x, in Horner form. -/
def polyValue (coeffs : List ℚ) (x : ℚ) : ℚ :=
  coeffs.foldr (fun c acc => c + x * acc) 0

/-- Modelled from the spec: the value of one coefficient set at a double
input (finite doubles are rationals; the exponential correction lands in ℝ).
The exponential is passed in as `expFn` and instantiated with `Real.exp`
in the theorems, keeping the evaluator itself executable. -/
def CoefficientSet.value (expFn : ℝ → ℝ) (s : CoefficientSet) (x : ℚ) : ℝ :=
  (polyValue s.coeffs x : ℝ) +
    match s.correction with
    | some (c, d, e) => (c : ℝ) * expFn (-(d : ℝ) * ((x : ℝ) - (e : ℝ)) ^ 2)
    | none => 0

/-- Modelled from the spec (sections 3 and 4.1): a range-segmented converter:
a first segment plus breakpoint-tagged further segments, a segment tagged b
applying from b upward.  The segments partition the whole input line, so
selection cannot fail, matching the spec's invariant that "no range matched"
must not occur. -/
structure SegmentedConverter where
  first : CoefficientSet
  rest : List (ℚ × CoefficientSet)

/-- The segments of a converter table. -/
def SegmentedConverter.segments (f : SegmentedConverter) : List CoefficientSet :=
  f.first :: f.rest.map Prod.snd

/-- Segment selection by boundary comparison against the input. -/
def SegmentedConverter.select (f : SegmentedConverter) (x : ℚ) : CoefficientSet :=
  f.rest.foldl (fun acc p => if p.1 ≤ x then p.2 else acc) f.first

/-- A converter call: evaluate the selected segment.  Total by construction:
every input yields a numeric value, never an error code. -/
def SegmentedConverter.convert (expFn : ℝ → ℝ) (f : SegmentedConverter) (x : ℚ) : ℝ :=
  CoefficientSet.value expFn (f.select x) x

/-- The documented per-type operating ranges, transcribed from the header
comment of thermocouple_calculator.h: temperature range (lines 24-37), EMF
range with the temperature interval it is documented for (lines 39-52). -/
structure DocRange where
  tempLo : ℚ
  tempHi : ℚ
  emfLo : ℚ
  emfHi : ℚ
  emfTempLo : ℚ
  emfTempHi : ℚ

/-- The documented ranges per type, from thermocouple_calculator.h lines 24-52. -/
def docRange : ThermocoupleType → DocRange
  | .R => ⟨-50, 1768.1, -0.225, 21.103, -50, 1768.1⟩
  | .S => ⟨-50, 1768.1, -0.235, 18.694, -50, 1768.1⟩
  | .B => ⟨0, 1820, 0.291, 13.820, 250, 1820⟩
  | .J => ⟨-210, 1200, -8.095, 69.553, -210, 1200⟩
  | .T => ⟨-270, 400, -5.603, 20.872, -200, 400⟩
  | .E => ⟨-270, 1000, -8.825, 76.373, -200, 1000⟩
  | .K => ⟨-270, 1372, -5.891, 54.886, -200, 1372⟩
  | .N => ⟨-270, 1300, -3.990, 47.513, -200, 1300⟩
  | .A1 => ⟨0, 2500, 0, 33.640, 0, 2500⟩
  | .A2 => ⟨0, 1800, 0, 27.232, 0, 1800⟩
  | .A3 => ⟨0, 1800, 0, 26.773, 0, 1800⟩
  | .L => ⟨-200, 800, -9.488, 66.466, -200, 800⟩
  | .M => ⟨-200, 100, -6.154, 4.722, -200, 100⟩

/-- The four types whose temperature range is documented down to -270 °C. -/
def lowTempTypes : List ThermocoupleType := [.T, .E, .K, .N]

/-- Valid ordinals decode to the matching enumerator. -/
theorem ofOrdinal?_ordinal (t : ThermocoupleType) :
    ThermocoupleType.ofOrdinal? t.ordinal = some t := by
  cases t <;> rfl

/-- Decoding fails exactly on the values outside 0..12. -/
theorem ofOrdinal?_eq_none_iff : ∀ n : Nat, ThermocoupleType.ofOrdinal? n = none ↔ 13 ≤ n
  | 0 | 1 | 2 | 3 | 4 | 5 | 6 | 7 | 8 | 9 | 10 | 11 | 12 => by decide
  | n + 13 => ⟨fun _ => by omega, fun _ => rfl⟩

/-- One dispatcher call when the selector decodes. -/
theorem get_valid (F : ConverterFamily) (c e : ℝ) (ty : Fin 256) (t : ThermocoupleType)
    (h : ThermocoupleType.ofOrdinal? ty.val = some t) :
    Thermocouple_Get_Temperature F c e ty =
      (some (F.EMFToTemp t (e + F.tempToEMF t c)), 0) := by
  simp [Thermocouple_Get_Temperature, h]

/-- The error-hook invocation count of one dispatcher call. -/
theorem hook_count (F : ConverterFamily) (c e : ℝ) (ty : Fin 256) :
    (Thermocouple_Get_Temperature F c e ty).2 = if 13 ≤ ty.val then 1 else 0 := by
  by_cases h : 13 ≤ ty.val
  · have hnone := (ofOrdinal?_eq_none_iff ty.val).mpr h
    simp [Thermocouple_Get_Temperature, hnone, h]
  · have hne : ThermocoupleType.ofOrdinal? ty.val ≠ none := fun hc =>
      h ((ofOrdinal?_eq_none_iff ty.val).mp hc)
    rcases Option.ne_none_iff_exists.mp hne with ⟨t, ht⟩
    simp [Thermocouple_Get_Temperature, ← ht, h]

/-- Range-matching over the tagged segments stays within the table. -/
theorem foldl_if_mem (x : ℚ) (l : List (ℚ × CoefficientSet)) (a : CoefficientSet) :
    l.foldl (fun acc p => if p.1 ≤ x then p.2 else acc) a ∈ a :: l.map Prod.snd := by
  induction l generalizing a with
  | nil => simp
  | cons hd tl ih =>
    simp only [List.foldl_cons, List.map_cons]
    by_cases h : hd.1 ≤ x
    · rw [if_pos h]
      exact List.mem_cons_of_mem _ (ih hd.2)
    · rw [if_neg h]
      rcases List.mem_cons.mp (ih a) with h1 | h1
      · exact List.mem_cons.mpr (Or.inl h1)
      · exact List.mem_cons_of_mem _ (List.mem_cons_of_mem _ h1)

/-- Selection always yields a segment of the table. -/
theorem select_mem (f : SegmentedConverter) (x : ℚ) :
    f.select x ∈ f.segments := by
  simpa [SegmentedConverter.select, SegmentedConverter.segments] using
    foldl_if_mem x f.rest f.first

/-- C1: for every valid selector (ordinal 0..12) and all inputs, the
dispatcher computes the cold-junction EMF with the type's forward converter,
adds the measured EMF, and converts the sum back with the same type's
inverse converter. -/
theorem C1_dispatcher_cold_junction_composition :
    (∀ (F : ConverterFamily) (cjt emf : ℝ) (ty : Fin 256), ty.val ≤ 12 →
      ∃ t : ThermocoupleType, ThermocoupleType.ofOrdinal? ty.val = some t ∧
        (Thermocouple_Get_Temperature F cjt emf ty).1 =
          some (F.EMFToTemp t (emf + F.tempToEMF t cjt))) ∧
    (∀ (F : ConverterFamily) (cjt emf : ℝ) (t : ThermocoupleType),
      (Thermocouple_Get_Temperature F cjt emf t.selector).1 =
        some (F.EMFToTemp t (emf + F.tempToEMF t cjt))) := by
  constructor
  · intro F cjt emf ty h
    have hne : ThermocoupleType.ofOrdinal? ty.val ≠ none := fun hc => by
      have := (ofOrdinal?_eq_none_iff ty.val).mp hc
      omega
    rcases Option.ne_none_iff_exists.mp hne with ⟨t, ht⟩
    exact ⟨t, ht.symm, by rw [get_valid F cjt emf ty t ht.symm]⟩
  · intro F cjt emf t
    rw [get_valid F cjt emf t.selector t (ofOrdinal?_ordinal t)]

/-- C3: a call with a selector outside 0..12 invokes the error hook exactly
once and returns the sentinel value; a call with a selector in 0..12 never
invokes the hook.  The dispatcher is a total function, so no call crashes. -/
theorem C3_invalid_selector_hook_once :
    ∀ (F : ConverterFamily) (cjt emf : ℝ) (ty : Fin 256),
      (Thermocouple_Get_Temperature F cjt emf ty).2 = (if 13 ≤ ty.val then 1 else 0) ∧
      ((Thermocouple_Get_Temperature F cjt emf ty).1 = none ↔ 13 ≤ ty.val) := by
  intro F cjt emf ty
  refine ⟨hook_count F cjt emf ty, ?_, ?_⟩
  · intro h1
    by_contra hlt
    have hne : ThermocoupleType.ofOrdinal? ty.val ≠ none := fun hc =>
      hlt ((ofOrdinal?_eq_none_iff ty.val).mp hc)
    rcases Option.ne_none_iff_exists.mp hne with ⟨t, ht⟩
    rw [get_valid F cjt emf ty t ht.symm] at h1
    simp at h1
  · intro h
    have hnone := (ofOrdinal?_eq_none_iff ty.val).mpr h
    simp [Thermocouple_Get_Temperature, hnone]

/-- C6: every converter is total: for every segment table and every input it
returns the numeric value of some segment of the table, with no error path;
and the error-hook notification is reserved for the unknown-type case in the
dispatcher: a call with a valid selector never invokes the hook, whatever
the numeric inputs. -/
theorem C6_converters_always_numeric :
    (∀ (expFn : ℝ → ℝ) (f : SegmentedConverter) (x : ℚ),
      ∃ s ∈ f.segments,
        SegmentedConverter.convert expFn f x = CoefficientSet.value expFn s x) ∧
    (∀ (F : ConverterFamily) (cjt emf : ℝ) (ty : Fin 256), ty.val ≤ 12 →
      (Thermocouple_Get_Temperature F cjt emf ty).2 = 0) := by
  constructor
  · intro expFn f x
    exact ⟨f.select x, select_mem f x, rfl⟩
  · intro F cjt emf ty h
    rw [hook_count F cjt emf ty, if_neg (by omega)]

/-- C7: determinism and statelessness: a dispatcher call's returned value is
independent of the accumulated hook-invocation state, and two sequential
calls with identical inputs return identical values. -/
theorem C7_dispatcher_stateless :
    ∀ (F : ConverterFamily) (cjt emf : ℝ) (ty : Fin 256) (s1 s2 : Nat),
      (Thermocouple_Get_Temperature_run F cjt emf ty s1).1 =
        (Thermocouple_Get_Temperature_run F cjt emf ty s2).1 ∧
      (Thermocouple_Get_Temperature_run F cjt emf ty
          (Thermocouple_Get_Temperature_run F cjt emf ty s1).2).1 =
        (Thermocouple_Get_Temperature_run F cjt emf ty s1).1 := by
  intro F cjt emf ty s1 s2
  exact ⟨rfl, rfl⟩

/-- C8: the enumeration has exactly 13 variants, in the fixed order
R, S, B, J, T, E, K, N, A1, A2, A3, L, M, with stable consecutive ordinals
0 through 12. -/
theorem C8_enum_thirteen_variants :
    Fintype.card ThermocoupleType = 13 ∧
    ThermocoupleType.variants.map ThermocoupleType.ordinal =
      [0, 1, 2, 3, 4, 5, 6, 7, 8, 9, 10, 11, 12] ∧
    ThermocoupleType.variants.Nodup ∧
    (∀ t : ThermocoupleType, t ∈ ThermocoupleType.variants) ∧
    Function.Injective ThermocoupleType.ordinal := by
  exact ⟨by decide, rfl, by decide, by decide, by decide⟩

set_option maxRecDepth 4096 in
/-- C9: the selector parameter is a byte: each of its 256 values either
decodes (ordinals 0..12) or is unknown (13..255); the hook fires exactly on
the 243 invalid byte values, whatever the converter family and inputs. -/
theorem C9_selector_uint8_invalid_set :
    (∀ (F : ConverterFamily) (cjt emf : ℝ) (ty : Fin 256),
      (Thermocouple_Get_Temperature F cjt emf ty).2 = 1 ↔ 13 ≤ ty.val) ∧
    (∀ ty : Fin 256, ThermocoupleType.ofOrdinal? ty.val = none ↔ 13 ≤ ty.val) ∧
    (Finset.filter (fun ty : Fin 256 => 13 ≤ ty.val) Finset.univ).card = 243 := by
  refine ⟨?_, fun ty => ofOrdinal?_eq_none_iff ty.val, by decide⟩
  intro F cjt emf ty
  rw [hook_count F cjt emf ty]
  by_cases h : 13 ≤ ty.val
  · simp [h]
  · simp [h]

/-- C10: for types T, E, K and N the header documents the temperature range
down to -270 °C but the EMF range only for temperatures from -200 °C upward;
hence every temperature in [-270, -200) lies outside the temperature
interval the EMF range is documented for, and any strictly increasing
forward converter matching the documented -200 °C endpoint EMF stays below
the documented EMF domain on [-270, -200). -/
theorem C10_documented_low_range_gap :
    (∀ t ∈ lowTempTypes, (docRange t).tempLo = -270 ∧ (docRange t).emfTempLo = -200) ∧
    (∀ t ∈ lowTempTypes, ∀ x : ℚ, -270 ≤ x → x < -200 →
      ¬ (docRange t).emfTempLo ≤ x) ∧
    (∀ t ∈ lowTempTypes, ∀ f : ℝ → ℝ, StrictMono f →
      f (-200) = ((docRange t).emfLo : ℝ) →
      ∀ x : ℝ, -270 ≤ x → x < -200 → f x < ((docRange t).emfLo : ℝ)) := by
  refine ⟨by decide, ?_, ?_⟩
  · intro t ht x hx1 hx2
    have h200 : (docRange t).emfTempLo = -200 := by
      fin_cases ht <;> rfl
    rw [h200]
    intro hc
    linarith
  · intro t ht f hf hval x hx1 hx2
    have hlt := hf (show x < (-200 : ℝ) from hx2)
    rw [hval] at hlt
    exact hlt
